import Mathlib

/-!
Shallow embedding of the CSV Data Validator backend
(`backend-python/csv_importer.py` and `backend-python/csv_template_generator.py`).

Python dictionaries are modelled as insertion-ordered association lists
(`List (String × _)`): lookup returns the first matching key, update keeps
the position of an existing key, and inserting a new key appends it at the
end — exactly the observable behaviour of CPython dicts.

String primitives used by the Python code (`str.split`, `str.strip`,
`str.lower`, `in`, slicing) are modelled on `List Char` so that every
definition is structurally recursive and kernel-reducible.
-/

namespace CsvValidator

/-- Lookup in an insertion-ordered dict: first entry whose key matches. -/
def dictGet {α : Type} (d : List (String × α)) (k : String) : Option α :=
  match d with
  | [] => none
  | (k2, v) :: rest => if k2 = k then some v else dictGet rest k

/-- Update in an insertion-ordered dict: an existing key keeps its position,
a new key is appended at the end (CPython dict assignment semantics). -/
def dictSet {α : Type} (d : List (String × α)) (k : String) (v : α) : List (String × α) :=
  match d with
  | [] => [(k, v)]
  | (k2, v2) :: rest => if k2 = k then (k2, v) :: rest else (k2, v2) :: dictSet rest k v

/-- Model of Python `sep.join`-style splitting, i.e. `value.split(sep)` for a
one-character separator: splitting "a.b.c" on the dot gives ["a","b","c"], and
"." gives ["",""]. Always returns a non-empty list. -/
def splitOnChar (sep : Char) : List Char → List (List Char)
  | [] => [[]]
  | c :: rest =>
    let r := splitOnChar sep rest
    if c = sep then [] :: r
    else
      match r with
      | [] => [[c]]
      | g :: gs => (c :: g) :: gs

/-- Python `value.split(sep)` for a single-character separator. -/
def strSplitOn (s : String) (sep : Char) : List String :=
  (splitOnChar sep s.toList).map String.mk

/-- Python `c in value` for a single character `c`. -/
def strHasChar (s : String) (c : Char) : Bool :=
  s.toList.contains c

/-- Python `value.lower()` (ASCII case folding; the tokens compared against
are all ASCII). -/
def pyLower (s : String) : String :=
  String.mk (s.toList.map Char.toLower)

/-- Python `item.strip()`: remove leading and trailing whitespace. -/
def pyStrip (s : String) : String :=
  String.mk (((s.toList.dropWhile Char.isWhitespace).reverse.dropWhile Char.isWhitespace).reverse)

/-- Python `value.startswith(q)` for a one-character string `q`. -/
def strStartsWithChar (s : String) (q : Char) : Bool :=
  match s.toList with
  | [] => false
  | c :: _ => c = q

/-- Python `value.endswith(q)` for a one-character string `q`. -/
def strEndsWithChar (s : String) (q : Char) : Bool :=
  match s.toList.getLast? with
  | none => false
  | some c => c = q

/-- Python slicing `value[1:-1]`: drop the first and the last character. -/
def dropEnds (s : String) : String :=
  String.mk ((s.toList.drop 1).dropLast)

/-- Substring test on the underlying character lists, used to model Python
`indicator in key.lower()` (substring containment for strings). -/
def listHasSubAt (pat : List Char) (hay : List Char) : Bool :=
  pat.isPrefixOf hay

/-- Substring occurrence anywhere in the haystack. -/
def listHasSub (pat : List Char) : List Char → Bool
  | [] => pat.isEmpty
  | c :: rest => pat.isPrefixOf (c :: rest) || listHasSub pat rest

/-- Python `pat in s` (substring containment). -/
def strContainsSub (s : String) (pat : String) : Bool :=
  listHasSub pat.toList s.toList

/-- Strip a sign character, used by the numeric-literal models: Python
`int()` / `float()` accept one optional leading `+`/`-`. -/
def dropSign (cs : List Char) : List Char :=
  match cs with
  | c :: rest => if c = '-' || c = '+' then rest else c :: rest
  | [] => []

/-- Leading sign is negative. -/
def isNegSign (cs : List Char) : Bool :=
  match cs with
  | c :: _ => c = '-'
  | [] => false

/-- Value of a non-empty all-digit character list. -/
def digitsToNat (cs : List Char) : Option Nat :=
  match cs with
  | [] => none
  | _ :: _ =>
    if cs.all Char.isDigit then
      some (cs.foldl (fun a c => a * 10 + (c.toNat - 48)) 0)
    else none

/-- Model of Python `int(value)` on the value strings produced by the CSV
reader: one optional sign followed by decimal digits. (Python additionally
tolerates surrounding whitespace, underscore digit grouping and non-ASCII
digits; no claim exercises those inputs.) -/
def pyIntParse (s : String) : Option Int :=
  match digitsToNat (dropSign s.toList) with
  | none => none
  | some n => some (if isNegSign s.toList then -(n : Int) else (n : Int))

/-- Mantissa of a float literal: digits, optionally followed by a dot and
further digits, with at least one digit overall. -/
def mantOk (cs : List Char) : Bool :=
  match cs.dropWhile Char.isDigit with
  | [] => !(cs.takeWhile Char.isDigit).isEmpty
  | c :: frac =>
    c = '.' && frac.all Char.isDigit &&
      (!(cs.takeWhile Char.isDigit).isEmpty || !frac.isEmpty)

/-- Exponent part after the `e`/`E`: optional sign then at least one digit. -/
def expPartOk (cs : List Char) : Bool :=
  !(dropSign cs).isEmpty && (dropSign cs).all Char.isDigit

/-- Character-level acceptor for Python `float(value)` literals. -/
def floatCharsOk (cs : List Char) : Bool :=
  match (dropSign cs).dropWhile (fun c => !(c = 'e' || c = 'E')) with
  | [] => mantOk ((dropSign cs).takeWhile (fun c => !(c = 'e' || c = 'E')))
  | _ :: erest =>
    mantOk ((dropSign cs).takeWhile (fun c => !(c = 'e' || c = 'E'))) && expPartOk erest

/-- Model of Python `float(value)` succeeding: sign, digits-dot-digits
mantissa, optional exponent. (Whitespace tolerance, underscore grouping and
`inf`/`nan` words are not modelled; the code only attempts `float` on values
containing a dot, and no claim exercises those inputs.) -/
def pyFloatOk (s : String) : Bool :=
  floatCharsOk s.toList

/-- Values of a NestedRecord as built by the importer: the Python code
produces None, bool, int, float, str, list-of-str and nested dict values.
A float is identified by the source text it was parsed from (no claim
inspects float arithmetic). -/
inductive PyVal : Type where
  | vNone : PyVal
  | vBool : Bool → PyVal
  | vInt : Int → PyVal
  | vFloat : String → PyVal
  | vStr : String → PyVal
  | vList : List String → PyVal
  | vDict : List (String × PyVal) → PyVal
deriving Repr

/-- Fixed list-indicator substrings from `process_value`. -/
def list_field_indicators : List String := ["tags", "features", "names", "ids"]

/-- Python `any(indicator in key.lower() for indicator in list_field_indicators)`. -/
def isListFieldName (key : String) : Bool :=
  list_field_indicators.any (fun indicator => strContainsSub (pyLower key) indicator)

/-- Enclosing-double-quote stripping in the list branch of `process_value`:
`value[1:-1]` when the value both starts and ends with a double quote. -/
def stripEnclosingQuotes (value : String) : String :=
  if strStartsWithChar value '"' && strEndsWithChar value '"' then dropEnds value
  else value

/-- Translation of `process_value(value, key)` from csv_importer.py:
empty → None; boolean tokens (case-insensitive "true"/"yes"/"1" and
"false"/"no"/"0"); comma-separated list when the key carries a list
indicator; otherwise numeric (float when the value contains a dot, else
int), falling back to the unchanged string. -/
def process_value (value : String) (key : String) : PyVal :=
  if value = "" then .vNone
  else if pyLower value ∈ ["true", "yes", "1"] then .vBool true
  else if pyLower value ∈ ["false", "no", "0"] then .vBool false
  else if strHasChar value ',' && isListFieldName key then
    .vList ((strSplitOn (stripEnclosingQuotes value) ',').map pyStrip)
  else if strHasChar value '.' then
    if pyFloatOk value then .vFloat value else .vStr value
  else
    match pyIntParse value with
    | some n => .vInt n
    | none => .vStr value

/-- Error text used where the Python navigation/assignment into a non-dict
intermediate value raises a TypeError. -/
def nonDictAssignError : String := "TypeError: cannot assign into non-dict value"

/-- Path assignment of the dotted-key branch of `transform_flat_to_nested`:
walk `parts[:-1]`, creating empty dicts for missing segments, then assign the
final segment. Descending into (or assigning into) an existing non-dict value
raises a TypeError in Python; this is modelled as an `.error` result. -/
def assignPath : List (String × PyVal) → List String → PyVal →
    Except String (List (String × PyVal))
  | _, [], _ => .error nonDictAssignError
  | d, [p], v => .ok (dictSet d p v)
  | d, p :: q :: rest, v =>
    match dictGet d p with
    | none =>
      match assignPath [] (q :: rest) v with
      | .ok sub => .ok (dictSet d p (.vDict sub))
      | .error e => .error e
    | some (.vDict sub) =>
      match assignPath sub (q :: rest) v with
      | .ok sub2 => .ok (dictSet d p (.vDict sub2))
      | .error e => .error e
    | some _ => .error nonDictAssignError

/-- Loop body of `transform_flat_to_nested`: fold the flat row's entries, in
order, into the accumulating nested dict. -/
def transformLoop : List (String × String) → List (String × PyVal) →
    Except String (List (String × PyVal))
  | [], acc => .ok acc
  | (key, value) :: rest, acc =>
    if strHasChar key '.' then
      let parts := strSplitOn key '.'
      match assignPath acc parts (process_value value (parts.getLastD "")) with
      | .ok acc2 => transformLoop rest acc2
      | .error e => .error e
    else
      transformLoop rest (dictSet acc key (process_value value key))

/-- Translation of `transform_flat_to_nested(flat_dict)` from csv_importer.py.
The result is the entry list of the produced nested dict; an uncaught Python
TypeError (assignment through a non-dict intermediate) is an `.error`. -/
def transform_flat_to_nested (flat : List (String × String)) :
    Except String (List (String × PyVal)) :=
  transformLoop flat []

/-! ### Validation pipeline (`import_and_validate_csv`) -/

/-- Per-row entry appended to `valid_items` / `invalid_items`: row number,
best-effort identifier, error text (present only on invalid rows) and the
nested record. -/
structure RowItem : Type where
  row : Nat
  id : PyVal
  error : Option String
  data : List (String × PyVal)
deriving Repr

/-- The `validation_results` dictionary built by `import_and_validate_csv`. -/
structure ValidationResults : Type where
  total : Nat
  valid : Nat
  invalid : Nat
  valid_items : List RowItem
  invalid_items : List RowItem
deriving Repr

/-- The external validator (`validate_against_schema` for a fixed schema):
after its `try/except ValidationError` it is a total function returning a
success flag and an optional error message. -/
def Validator : Type := List (String × PyVal) → Bool × Option String

/-- Python `nested_data.get("id", "unknown")`. -/
def rowIdOf (nested : List (String × PyVal)) : PyVal :=
  (dictGet nested "id").getD (.vStr "unknown")

/-- Row loop of `import_and_validate_csv`: transform each row (an uncaught
transform error propagates and aborts the whole call), validate, and append
the outcome to the matching bucket with row number `i + 2`. -/
def importLoop (validator : Validator) :
    List (List (String × String)) → Nat → ValidationResults →
    Except String ValidationResults
  | [], _, acc => .ok acc
  | row :: rest, i, acc =>
    match transform_flat_to_nested row with
    | .error e => .error e
    | .ok nested_data =>
      let res := validator nested_data
      if res.1 then
        importLoop validator rest (i + 1)
          { acc with
            valid := acc.valid + 1,
            valid_items := acc.valid_items ++
              [{ row := i + 2, id := rowIdOf nested_data, error := none,
                 data := nested_data }] }
      else
        importLoop validator rest (i + 1)
          { acc with
            invalid := acc.invalid + 1,
            invalid_items := acc.invalid_items ++
              [{ row := i + 2, id := rowIdOf nested_data, error := res.2,
                 data := nested_data }] }

/-- Single-quote character, for rendering Python `repr` of strings. -/
def singleQuote : String := String.singleton (Char.ofNat 39)

/-- Python `repr` of a plain string (escaping inside the name not modelled;
schema names are plain identifiers). -/
def pyStrRepr (s : String) : String := singleQuote ++ s ++ singleQuote

/-- Python `str(list_of_names)` as interpolated into the error f-string. -/
def pyListRepr (names : List String) : String :=
  "[" ++ String.intercalate ", " (names.map pyStrRepr) ++ "]"

/-- Message of the ValueError raised for an unknown schema name:
`f"Unknown schema: {schema_name}. Available schemas: {list(available_schemas.keys())}"`. -/
def unknownSchemaMessage (schema_name : String) (available : List String) : String :=
  "Unknown schema: " ++ schema_name ++ ". Available schemas: " ++ pyListRepr available

/-- Translation of `import_and_validate_csv(file_path, schema_name)`.
The discovered schema set is abstracted to its name list, the already-read
CSV rows to `csvData`, and the external schema engine to `validator`; a
raised exception is an `.error` result. The unknown-schema check happens
before any row is examined, exactly as in the source. -/
def import_and_validate_csv (availableSchemas : List String) (validator : Validator)
    (csvData : List (List (String × String))) (schema_name : String) :
    Except String ValidationResults :=
  if schema_name ∈ availableSchemas then
    importLoop validator csvData 0
      { total := csvData.length, valid := 0, invalid := 0,
        valid_items := [], invalid_items := [] }
  else
    .error (unknownSchemaMessage schema_name availableSchemas)

/-- Substring containment, used to state what the unknown-schema message
carries. -/
def ContainsStr (s t : String) : Prop := ∃ a b : String, a ++ t ++ b = s

/-! ### Schema flattener and template generator (`csv_template_generator.py`)

Schema files are JSON documents; they are modelled by `JVal`. -/

/-- JSON values, as loaded from a schema file. -/
inductive JVal : Type where
  | jNull : JVal
  | jBool : Bool → JVal
  | jNum : Int → JVal
  | jStr : String → JVal
  | jArr : List JVal → JVal
  | jObj : List (String × JVal) → JVal
deriving Repr

/-- Python `node.get(k)` on a schema node (schema nodes are JSON objects;
`get` on a non-object is not reachable for well-formed schema files). -/
def jGet (v : JVal) (k : String) : Option JVal :=
  match v with
  | .jObj entries => dictGet entries k
  | _ => none

/-- Python `k in node`. -/
def jHasKey (v : JVal) (k : String) : Bool := (jGet v k).isSome

/-- Python `node.get('type') == t` (false when `type` is absent or not a
string). -/
def typeIs (v : JVal) (t : String) : Bool :=
  match jGet v "type" with
  | some (.jStr s) => s = t
  | _ => false

/-- The test `'properties' in node and node.get('type') == 'object'` used for
both nested objects and array items. -/
def isObjectWithProps (v : JVal) : Bool :=
  jHasKey v "properties" && typeIs v "object"

/-- The synthesized leaf `{"type": "string", "format": "time"}`. -/
def timeLeafNode : JVal := .jObj [("type", .jStr "string"), ("format", .jStr "time")]

/-- The hard-coded day list of the openingHours special case. -/
def weekDays : List String :=
  ["Monday", "Tuesday", "Wednesday", "Thursday", "Friday", "Saturday", "Sunday"]

/-- A value found by `dictGet` is structurally smaller than the entry list. -/
theorem sizeOf_dictGet {α : Type} [SizeOf α] :
    ∀ (d : List (String × α)) (k : String) (v : α),
      dictGet d k = some v → sizeOf v < sizeOf d := by
  intro d k v h
  induction d with
  | nil => simp [dictGet] at h
  | cons hd tl ih =>
    obtain ⟨k2, v2⟩ := hd
    simp only [dictGet] at h
    by_cases hk : k2 = k
    · simp [hk] at h
      subst h
      simp
      omega
    · simp [hk] at h
      have := ih h
      simp
      omega

/-- A value found by `jGet` is structurally smaller than the object. -/
theorem sizeOf_jGet :
    ∀ (j : JVal) (k : String) (u : JVal), jGet j k = some u → sizeOf u < sizeOf j := by
  intro j k u h
  cases j with
  | jObj entries =>
    simp only [jGet] at h
    have := sizeOf_dictGet entries k u h
    simp
    omega
  | jNull => simp [jGet] at h
  | jBool b => simp [jGet] at h
  | jNum n => simp [jGet] at h
  | jStr s => simp [jGet] at h
  | jArr l => simp [jGet] at h

/-- Translation of `_flatten_schema`: the loop over `schema.get('properties',
{}).items()`; `props` is that property list, `parent_key` and `flattened` the
other two parameters. The unreachable fallbacks (a `properties` value that is
not an object, where Python would raise) keep the function total. -/
def flattenProps : List (String × JVal) → String → List (String × JVal) →
    List (String × JVal)
  | [], _, flattened => flattened
  | (key, value) :: rest, parent_key, flattened =>
    let new_key := if parent_key = "" then key else parent_key ++ "." ++ key
    if isObjectWithProps value then
      match hps : jGet value "properties" with
      | some (.jObj childProps) =>
        flattenProps rest parent_key (flattenProps childProps new_key flattened)
      | _ => flattenProps rest parent_key flattened
    else if jHasKey value "items" && typeIs value "array" then
      let items := (jGet value "items").getD (.jObj [])
      if isObjectWithProps items then
        let itemProps :=
          match jGet items "properties" with
          | some (.jObj ps) => ps
          | _ => []
        flattenProps rest parent_key
          (itemProps.foldl
            (fun acc kv => dictSet acc (new_key ++ "." ++ kv.1) kv.2) flattened)
      else if key = "openingHours" then
        flattenProps rest parent_key
          (weekDays.foldl
            (fun acc day =>
              dictSet (dictSet acc (new_key ++ "." ++ day ++ ".opens") timeLeafNode)
                (new_key ++ "." ++ day ++ ".closes") timeLeafNode) flattened)
      else
        flattenProps rest parent_key (dictSet flattened new_key value)
    else
      flattenProps rest parent_key (dictSet flattened new_key value)
termination_by props _ _ => sizeOf props
decreasing_by
  all_goals simp_wf
  all_goals (have h1 := sizeOf_jGet value "properties" _ hps; simp at h1; omega)

/-- Top-level `_flatten_schema(schema)` with the default arguments. -/
def flatten_schema (schema : JVal) : List (String × JVal) :=
  match jGet schema "properties" with
  | some (.jObj props) => flattenProps props "" []
  | _ => []

/-- Translation of `_schema_to_csv_headers`: `list(schema.keys())` of the
flattened schema (despite its comment, the function does not sort). -/
def schema_to_csv_headers (flattened : List (String × JVal)) : List String :=
  flattened.map Prod.fst

/-- The `common_samples` table of `_create_sample_row`. -/
def common_samples (schema_name : String) : List (String × String) :=
  [("sourceId", "partner123"),
   ("id", schema_name ++ "123"),
   ("nameFr", "Nom en français"),
   ("nameEn", "Name in English"),
   ("descriptionFr", "Description en français"),
   ("descriptionEn", "Description in English")]

/-- The event-specific sample table. -/
def event_samples : List (String × String) :=
  [("status", "scheduled"),
   ("startDate", "2023-08-15"),
   ("endDate", "2023-08-15"),
   ("startTime", "19:30"),
   ("endTime", "22:00"),
   ("placeId", "place123"),
   ("price.type", "range"),
   ("price.currency", "CAD"),
   ("price.minValue", "25.00"),
   ("price.maxValue", "75.00"),
   ("categoryTags", "music,concert,jazz"),
   ("performerNames", "John Smith Quartet,Jane Doe"),
   ("isAccessible", "true"),
   ("accessibilityFeatures", "Wheelchair Access,Assistive Listening Systems"),
   ("images.url", "https://example.com/images/event.jpg"),
   ("images.altText", "Event image description"),
   ("images.width", "1200"),
   ("images.height", "800"),
   ("ticketPurchaseUrl", "https://example.com/tickets")]

/-- The place-specific sample table. -/
def place_samples : List (String × String) :=
  [("locationType", "Place"),
   ("containedInPlaceStatus", "false"),
   ("addressStreet", "123 Main Street"),
   ("addressCity", "Montréal"),
   ("addressRegion", "QC"),
   ("addressPostalCode", "H2X1Z4"),
   ("addressCountry", "CAN"),
   ("latitude", "45.5088"),
   ("longitude", "-73.5878"),
   ("capacity", "500"),
   ("phoneNumber", "+15141234567"),
   ("emailAddress", "info@example.com"),
   ("websiteUrl", "https://example.com"),
   ("openingHours.Monday.opens", "09:00"),
   ("openingHours.Monday.closes", "17:00"),
   ("openingHours.Tuesday.opens", "09:00"),
   ("openingHours.Tuesday.closes", "17:00"),
   ("openingHours.Wednesday.opens", "09:00"),
   ("openingHours.Wednesday.closes", "17:00"),
   ("openingHours.Thursday.opens", "09:00"),
   ("openingHours.Thursday.closes", "21:00"),
   ("openingHours.Friday.opens", "09:00"),
   ("openingHours.Friday.closes", "21:00"),
   ("openingHours.Saturday.opens", "10:00"),
   ("openingHours.Saturday.closes", "21:00"),
   ("openingHours.Sunday.opens", "10:00"),
   ("openingHours.Sunday.closes", "17:00"),
   ("accessibilityFeatures",
    "Wheelchair Access,Accessible Restrooms,Assistive Listening Systems"),
   ("images.url", "https://example.com/images/place.jpg"),
   ("images.altText", "Exterior view of the location"),
   ("images.width", "1200"),
   ("images.height", "800")]

/-- The schema-specific sample table chosen by `_create_sample_row`. -/
def schema_samples (schema_name : String) : List (String × String) :=
  if schema_name = "event" then event_samples
  else if schema_name = "place" then place_samples
  else []

/-- Python dict merge `{**a, **b}`. -/
def mergeDicts {α : Type} (a b : List (String × α)) : List (String × α) :=
  b.foldl (fun acc kv => dictSet acc kv.1 kv.2) a

/-- Translation of `_create_sample_row(headers, schema_name)`: for each
header, the sample value if the merged table has one, otherwise the empty
string. -/
def create_sample_row (headers : List String) (schema_name : String) :
    List (String × String) :=
  let sample_data := mergeDicts (common_samples schema_name) (schema_samples schema_name)
  headers.map (fun header => (header, (dictGet sample_data header).getD ""))

/-- Headers and sample row produced by `_generate_csv_template` (the final
`csv.DictWriter` serialization adds no information beyond these two). -/
def generate_template_parts (schema : JVal) (schema_name : String) :
    List String × List (String × String) :=
  let flattened := flatten_schema schema
  let headers := schema_to_csv_headers flattened
  (headers, create_sample_row headers schema_name)

/-! ### Concrete fixtures used by witnesses and counterexamples -/

/-- The nested dict a single dotted key unfolds to: a chain of singleton
dicts ending in the value. -/
def nestedSingleton : List String → PyVal → List (String × PyVal)
  | [], _ => []
  | [p], v => [(p, v)]
  | p :: q :: rest, v => [(p, .vDict (nestedSingleton (q :: rest) v))]

/-- A validator accepting every record. -/
def vOkAll : Validator := fun _ => (true, none)

/-- A validator rejecting every record with a fixed message. -/
def vRejectAll : Validator := fun _ => (false, some "record is not valid")

/-- Schema property list whose `openingHours` field is an array of plain
strings (an array-of-leaf declaration). -/
def ohLeafProps : List (String × JVal) :=
  [("openingHours", .jObj [("type", .jStr "array"),
     ("items", .jObj [("type", .jStr "string")])])]

/-- Schema property list whose `openingHours` field is an array whose items
are declared as an object with properties. -/
def ohObjectItemsProps : List (String × JVal) :=
  [("openingHours", .jObj [("type", .jStr "array"),
     ("items", .jObj [("type", .jStr "object"),
        ("properties", .jObj [("opens", .jObj [("type", .jStr "string")])])])])]

/-- A small two-field schema document for the template-generation witness. -/
def twoFieldSchema : JVal :=
  .jObj [("properties", .jObj
    [("id", .jObj [("type", .jStr "string")]),
     ("nameFr", .jObj [("type", .jStr "string")])])]

/-- Two concrete data rows (one header line plus two data lines). -/
def demoRows : List (List (String × String)) :=
  [[("id", "7")], [("id", "8")]]

/-- The report produced for `demoRows` under the all-accepting validator. -/
def demoReport : ValidationResults :=
  { total := 2, valid := 2, invalid := 0,
    valid_items :=
      [{ row := 2, id := .vInt 7, error := none, data := [("id", .vInt 7)] },
       { row := 3, id := .vInt 8, error := none, data := [("id", .vInt 8)] }],
    invalid_items := [] }

/-! ## Helper lemmas -/

theorem dictGet_dictSet_self {α : Type} (d : List (String × α)) (k : String) (v : α) :
    dictGet (dictSet d k v) k = some v := by
  induction d with
  | nil => simp [dictGet, dictSet]
  | cons hd tl ih =>
    obtain ⟨k2, v2⟩ := hd
    by_cases hk : k2 = k
    · simp [dictGet, dictSet, hk]
    · simp [dictGet, dictSet, hk, ih]

theorem dictGet_dictSet_isSome {α : Type} (d : List (String × α)) (k k2 : String) (v : α)
    (h : (dictGet d k2).isSome = true) : (dictGet (dictSet d k v) k2).isSome = true := by
  induction d with
  | nil => simp [dictGet] at h
  | cons hd tl ih =>
    obtain ⟨k3, v3⟩ := hd
    by_cases hk : k3 = k
    · simp only [dictSet, if_pos hk, dictGet]
      by_cases hk2 : k3 = k2
      · simp [if_pos hk2]
      · simp only [if_neg hk2]
        simp only [dictGet, if_neg hk2] at h
        exact h
    · simp only [dictSet, if_neg hk, dictGet]
      by_cases hk2 : k3 = k2
      · simp [if_pos hk2]
      · simp only [if_neg hk2]
        simp only [dictGet, if_neg hk2] at h
        exact ih h

theorem mem_dropSign {cs : List Char} {c : Char} (hc : c ≠ '-') (hp : c ≠ '+')
    (h : c ∈ cs) : c ∈ dropSign cs := by
  cases cs with
  | nil => simp at h
  | cons a rest =>
    unfold dropSign
    by_cases ha : a = '-' || a = '+'
    · rcases List.mem_cons.mp h with h1 | h1
      · subst h1
        rcases Bool.or_eq_true_iff.mp ha with h2 | h2
        · exact absurd (by simpa using h2) hc
        · exact absurd (by simpa using h2) hp
      · simp [ha, h1]
    · simp [ha, h]

theorem all_isDigit_false {cs : List Char} {c : Char} (h : c ∈ cs)
    (hd : c.isDigit = false) : cs.all Char.isDigit = false := by
  rw [Bool.eq_false_iff]
  intro hall
  have := List.all_eq_true.mp hall c h
  rw [hd] at this
  exact Bool.false_ne_true this

theorem digitsToNat_none {cs : List Char} {c : Char} (h : c ∈ cs)
    (hd : c.isDigit = false) : digitsToNat cs = none := by
  cases cs with
  | nil => rfl
  | cons a rest =>
    unfold digitsToNat
    rw [all_isDigit_false h hd]
    simp

theorem pyIntParse_comma (s : String) (hc : strHasChar s ',' = true) :
    pyIntParse s = none := by
  have hmem : ',' ∈ s.toList := by
    simpa [strHasChar, List.contains] using hc
  have hmem2 : ',' ∈ dropSign s.toList :=
    mem_dropSign (by decide) (by decide) hmem
  unfold pyIntParse
  rw [digitsToNat_none hmem2 (by decide)]

theorem dropWhile_head_false {α : Type} {p : α → Bool} :
    ∀ (l : List α) (a : α) (t : List α), l.dropWhile p = a :: t → p a = false := by
  intro l
  induction l with
  | nil => intro a t h; simp [List.dropWhile] at h
  | cons c rest ih =>
    intro a t h
    rw [List.dropWhile_cons] at h
    by_cases hp : p c
    · rw [if_pos hp] at h
      exact ih a t h
    · rw [if_neg hp] at h
      injection h with h1 _
      subst h1
      exact Bool.eq_false_iff.mpr hp

theorem mem_takeWhile_or_dropWhile {α : Type} {p : α → Bool} {l : List α} {a : α}
    (h : a ∈ l) : a ∈ l.takeWhile p ∨ a ∈ l.dropWhile p := by
  rw [← List.takeWhile_append_dropWhile p l] at h
  exact List.mem_append.mp h

theorem mantOk_comma {cs : List Char} (h : ',' ∈ cs) : mantOk cs = false := by
  rcases mem_takeWhile_or_dropWhile (p := Char.isDigit) h with h1 | h1
  · have := List.mem_takeWhile_imp h1
    simp at this
  · match hcs : cs.dropWhile Char.isDigit with
    | [] => rw [hcs] at h1; simp at h1
    | c :: frac =>
      rw [hcs] at h1
      unfold mantOk
      rw [hcs]
      rcases List.mem_cons.mp h1 with h2 | h2
      · subst h2
        simp
      · show (decide (c = '.') && frac.all Char.isDigit &&
          (!(List.takeWhile Char.isDigit cs).isEmpty || !frac.isEmpty)) = false
        rw [all_isDigit_false h2 (by decide)]
        simp

theorem expPartOk_comma {cs : List Char} (h : ',' ∈ cs) : expPartOk cs = false := by
  unfold expPartOk
  have hmem2 : ',' ∈ dropSign cs := mem_dropSign (by decide) (by decide) h
  rw [all_isDigit_false hmem2 (by decide)]
  simp

theorem pyFloatOk_comma (s : String) (hc : strHasChar s ',' = true) :
    pyFloatOk s = false := by
  have hmem : ',' ∈ s.toList := by
    simpa [strHasChar, List.contains] using hc
  have hmem1 : ',' ∈ dropSign s.toList :=
    mem_dropSign (by decide) (by decide) hmem
  unfold pyFloatOk
  rcases mem_takeWhile_or_dropWhile (p := fun c => !(c = 'e' || c = 'E')) hmem1 with h1 | h1
  · match hcs : (dropSign s.toList).dropWhile (fun c => !(c = 'e' || c = 'E')) with
    | [] =>
      unfold floatCharsOk
      rw [hcs, mantOk_comma h1]
    | _ :: erest =>
      unfold floatCharsOk
      rw [hcs, mantOk_comma h1]
      simp
  · match hcs : (dropSign s.toList).dropWhile (fun c => !(c = 'e' || c = 'E')) with
    | [] => rw [hcs] at h1; simp at h1
    | c :: erest =>
      rw [hcs] at h1
      have hhead := dropWhile_head_false _ c erest hcs
      rcases List.mem_cons.mp h1 with h2 | h2
      · subst h2
        simp at hhead
      · unfold floatCharsOk
        rw [hcs]
        show (mantOk ((dropSign s.toList).takeWhile (fun c => !(c = 'e' || c = 'E'))) &&
          expPartOk erest) = false
        rw [expPartOk_comma h2]
        simp

/-- Effect of `assignPath` on a fresh (empty) dict: it builds the singleton
chain. -/
theorem assignPath_fresh :
    ∀ (parts : List String) (v : PyVal), parts ≠ [] →
      assignPath [] parts v = .ok (nestedSingleton parts v) := by
  intro parts
  induction parts with
  | nil => intro v h; exact absurd rfl h
  | cons p rest ih =>
    intro v _
    cases rest with
    | nil => simp [assignPath, nestedSingleton, dictSet]
    | cons q rest2 =>
      simp only [assignPath, dictGet]
      rw [ih v (by simp)]
      simp [nestedSingleton, dictSet]

/-! ## Claims about the transcoder -/

/-- C2: boolean coercion precedence. For every field name, `process_value`
turns "0" into boolean false and "1" into boolean true (never an integer),
and more generally any value whose lowercase form is one of
"true"/"yes"/"1" becomes boolean true, and "false"/"no"/"0" becomes boolean
false, before any list or numeric interpretation. -/
theorem claim_C2 :
    (∀ key : String,
      process_value "0" key = PyVal.vBool false ∧ process_value "1" key = PyVal.vBool true)
    ∧ (∀ value key : String, pyLower value ∈ (["true", "yes", "1"] : List String) →
        process_value value key = PyVal.vBool true)
    ∧ (∀ value key : String, pyLower value ∈ (["false", "no", "0"] : List String) →
        process_value value key = PyVal.vBool false) := by
  refine ⟨fun key => ⟨rfl, rfl⟩, ?_, ?_⟩
  · intro value key h
    have hne : ¬(value = "") := by
      intro he
      subst he
      exact absurd h (by decide)
    unfold process_value
    rw [if_neg hne, if_pos h]
  · intro value key h
    have hne : ¬(value = "") := by
      intro he
      subst he
      exact absurd h (by decide)
    have hnt : pyLower value ∉ (["true", "yes", "1"] : List String) := by
      intro hmem
      rcases List.mem_cons.mp h with h1 | h'
      · rw [h1] at hmem; exact absurd hmem (by decide)
      rcases List.mem_cons.mp h' with h2 | h''
      · rw [h2] at hmem; exact absurd hmem (by decide)
      rcases List.mem_cons.mp h'' with h3 | h'''
      · rw [h3] at hmem; exact absurd hmem (by decide)
      · exact absurd h''' (by simp)
    unfold process_value
    rw [if_neg hne, if_neg hnt, if_pos h]

/-- Witness for C2 at a concrete mixed-case token. -/
theorem claim_C2_witness :
    pyLower "YES" ∈ (["true", "yes", "1"] : List String)
    ∧ process_value "YES" "capacity" = PyVal.vBool true :=
  ⟨by decide, claim_C2.2.1 "YES" "capacity" (by decide)⟩

/-- C4: `transform_flat_to_nested` splits each key on the dot, nests the
levels, and coerces the leaf value: an undotted key maps directly to its
coerced value, a dotted key unfolds to the chain of singleton dicts with the
value coerced using the final segment name, and in particular
`{"a.b.c": "5"}` becomes `{"a": {"b": {"c": 5}}}` with the leaf coerced to
integer 5. -/
theorem claim_C4 :
    (∀ key value : String, strHasChar key '.' = false →
      transform_flat_to_nested [(key, value)] = .ok [(key, process_value value key)])
    ∧ (∀ (key value p : String) (ps : List String),
        strHasChar key '.' = true → strSplitOn key '.' = p :: ps →
        transform_flat_to_nested [(key, value)] =
          .ok (nestedSingleton (p :: ps) (process_value value ((p :: ps).getLastD ""))))
    ∧ transform_flat_to_nested [("a.b.c", "5")] =
        .ok [("a", .vDict [("b", .vDict [("c", .vInt 5)])])] := by
  refine ⟨?_, ?_, rfl⟩
  · intro key value h
    simp [transform_flat_to_nested, transformLoop, h, dictSet]
  · intro key value p ps h hsplit
    simp only [transform_flat_to_nested, transformLoop, h, hsplit, if_true]
    rw [assignPath_fresh (p :: ps) _ (by simp)]

/-- Witness for C4 at the concrete dotted key "a.b.c". -/
theorem claim_C4_witness :
    strHasChar "a.b.c" '.' = true
    ∧ strSplitOn "a.b.c" '.' = ["a", "b", "c"]
    ∧ transform_flat_to_nested [("a.b.c", "5")] =
        .ok (nestedSingleton ["a", "b", "c"] (process_value "5" (["a", "b", "c"].getLastD ""))) :=
  ⟨by decide, rfl, claim_C4.2.1 "a.b.c" "5" "a" ["b", "c"] (by decide) rfl⟩

/-- C5: list coercion. For every non-boolean-token value containing a comma,
a field name carrying one of the list-indicator substrings yields the naive
comma split (after stripping one layer of enclosing double quotes and
trimming each piece), while a field name without an indicator leaves the
value as the literal string (a comma can never parse as int or float). -/
theorem claim_C5 :
    (∀ value key : String,
      pyLower value ∉ (["true", "yes", "1"] : List String) →
      pyLower value ∉ (["false", "no", "0"] : List String) →
      strHasChar value ',' = true →
      isListFieldName key = true →
      process_value value key =
        .vList ((strSplitOn (stripEnclosingQuotes value) ',').map pyStrip))
    ∧ (∀ value key : String,
      pyLower value ∉ (["true", "yes", "1"] : List String) →
      pyLower value ∉ (["false", "no", "0"] : List String) →
      strHasChar value ',' = true →
      isListFieldName key = false →
      process_value value key = .vStr value)
    ∧ process_value "x,y,z" "categoryTags" = .vList ["x", "y", "z"]
    ∧ process_value "x,y,z" "plainField" = .vStr "x,y,z" := by
  refine ⟨?_, ?_, rfl, rfl⟩
  · intro value key ht hf hcomma hl
    have hne : ¬(value = "") := by
      intro he
      subst he
      exact absurd hcomma (by decide)
    have hcond : (strHasChar value ',' && isListFieldName key) = true := by
      rw [hcomma, hl]; rfl
    unfold process_value
    rw [if_neg hne, if_neg ht, if_neg hf, if_pos hcond]
  · intro value key ht hf hcomma hl
    have hne : ¬(value = "") := by
      intro he
      subst he
      exact absurd hcomma (by decide)
    have hcond : (strHasChar value ',' && isListFieldName key) = false := by
      rw [hcomma, hl]; rfl
    unfold process_value
    rw [if_neg hne, if_neg ht, if_neg hf, if_neg (by simp [hcond])]
    by_cases hdot : strHasChar value '.' = true
    · rw [if_pos hdot, if_neg (by simp [pyFloatOk_comma value hcomma])]
    · rw [if_neg hdot, pyIntParse_comma value hcomma]

/-- Witness for C5 at "x,y,z" against a list-indicator field and a plain
field. -/
theorem claim_C5_witness :
    pyLower "x,y,z" ∉ (["true", "yes", "1"] : List String)
    ∧ pyLower "x,y,z" ∉ (["false", "no", "0"] : List String)
    ∧ strHasChar "x,y,z" ',' = true
    ∧ isListFieldName "categoryTags" = true
    ∧ isListFieldName "plainField" = false
    ∧ process_value "x,y,z" "categoryTags" = PyVal.vList ["x", "y", "z"]
    ∧ process_value "x,y,z" "plainField" = PyVal.vStr "x,y,z" :=
  ⟨by decide, by decide, by decide, by decide, by decide,
   Eq.trans (claim_C5.1 "x,y,z" "categoryTags" (by decide) (by decide) (by decide) (by decide)) rfl,
   claim_C5.2.1 "x,y,z" "plainField" (by decide) (by decide) (by decide) (by decide)⟩

/-- C9: `transform_flat_to_nested` is not total. When the undotted key "a"
is processed before the dotted key "a.b", the "a" slot already holds the
coerced leaf 5, and the dotted pass descends into that non-dict value
unguarded — Python raises a TypeError, modelled here as an error result. -/
theorem claim_C9 :
    transform_flat_to_nested [("a", "5"), ("a.b", "6")] = .error nonDictAssignError := rfl

/-! ## Lemmas about the row loop of `import_and_validate_csv` -/

theorem importLoop_ok_of_transforms (validator : Validator) :
    ∀ (rows : List (List (String × String))) (i : Nat) (acc : ValidationResults),
      (∀ row ∈ rows, ∃ d, transform_flat_to_nested row = .ok d) →
      ∃ r, importLoop validator rows i acc = .ok r := by
  intro rows
  induction rows with
  | nil => intro i acc _; exact ⟨acc, rfl⟩
  | cons row rest ih =>
    intro i acc h
    obtain ⟨d, hd⟩ := h row (List.mem_cons_self row rest)
    have hrest := fun r hr => h r (List.mem_cons_of_mem row hr)
    simp only [importLoop, hd]
    by_cases hb : (validator d).1 = true
    · rw [if_pos hb]
      exact ih (i + 1) _ hrest
    · rw [if_neg hb]
      exact ih (i + 1) _ hrest

theorem importLoop_total_eq (validator : Validator) :
    ∀ rows i acc r, importLoop validator rows i acc = .ok r → r.total = acc.total := by
  intro rows
  induction rows with
  | nil =>
    intro i acc r h
    simp only [importLoop, Except.ok.injEq] at h
    rw [← h]
  | cons row rest ih =>
    intro i acc r h
    simp only [importLoop] at h
    cases htr : transform_flat_to_nested row with
    | error e => rw [htr] at h; simp at h
    | ok d =>
      rw [htr] at h
      simp only [] at h
      split_ifs at h with hb
      · exact (ih (i + 1) _ r h).trans rfl
      · exact (ih (i + 1) _ r h).trans rfl

theorem importLoop_counts (validator : Validator) :
    ∀ rows i acc r, importLoop validator rows i acc = .ok r →
      (acc.valid = acc.valid_items.length → r.valid = r.valid_items.length)
      ∧ (acc.invalid = acc.invalid_items.length → r.invalid = r.invalid_items.length) := by
  intro rows
  induction rows with
  | nil =>
    intro i acc r h
    simp only [importLoop, Except.ok.injEq] at h
    rw [← h]
    exact ⟨id, id⟩
  | cons row rest ih =>
    intro i acc r h
    simp only [importLoop] at h
    cases htr : transform_flat_to_nested row with
    | error e => rw [htr] at h; simp at h
    | ok d =>
      rw [htr] at h
      simp only [] at h
      split_ifs at h with hb
      · have := ih (i + 1) _ r h
        constructor
        · intro hv
          exact this.1 (by simp [hv])
        · intro hv
          exact this.2 (by simp [hv])
      · have := ih (i + 1) _ r h
        constructor
        · intro hv
          exact this.1 (by simp [hv])
        · intro hv
          exact this.2 (by simp [hv])

theorem importLoop_len (validator : Validator) :
    ∀ rows i acc r, importLoop validator rows i acc = .ok r →
      r.valid_items.length + r.invalid_items.length =
        acc.valid_items.length + acc.invalid_items.length + rows.length := by
  intro rows
  induction rows with
  | nil =>
    intro i acc r h
    simp only [importLoop, Except.ok.injEq] at h
    rw [← h]
    simp
  | cons row rest ih =>
    intro i acc r h
    simp only [importLoop] at h
    cases htr : transform_flat_to_nested row with
    | error e => rw [htr] at h; simp at h
    | ok d =>
      rw [htr] at h
      simp only [] at h
      split_ifs at h with hb
      · have := ih (i + 1) _ r h
        simp at this
        simp [this]
        omega
      · have := ih (i + 1) _ r h
        simp at this
        simp [this]
        omega

theorem importLoop_mono (validator : Validator) :
    ∀ rows i acc r, importLoop validator rows i acc = .ok r →
      (∀ item ∈ acc.valid_items, item ∈ r.valid_items)
      ∧ (∀ item ∈ acc.invalid_items, item ∈ r.invalid_items) := by
  intro rows
  induction rows with
  | nil =>
    intro i acc r h
    simp only [importLoop, Except.ok.injEq] at h
    rw [← h]
    exact ⟨fun item hm => hm, fun item hm => hm⟩
  | cons row rest ih =>
    intro i acc r h
    simp only [importLoop] at h
    cases htr : transform_flat_to_nested row with
    | error e => rw [htr] at h; simp at h
    | ok d =>
      rw [htr] at h
      simp only [] at h
      split_ifs at h with hb
      · have := ih (i + 1) _ r h
        constructor
        · intro item hm
          exact this.1 item (by simp [hm])
        · intro item hm
          exact this.2 item (by simp [hm])
      · have := ih (i + 1) _ r h
        constructor
        · intro item hm
          exact this.1 item (by simp [hm])
        · intro item hm
          exact this.2 item (by simp [hm])

theorem importLoop_item (validator : Validator) :
    ∀ (rows : List (List (String × String))) (i : Nat) (acc r : ValidationResults),
      importLoop validator rows i acc = .ok r →
      ∀ (j : Nat) (rowj : List (String × String)) (d : List (String × PyVal)),
        rows[j]? = some rowj →
        transform_flat_to_nested rowj = .ok d →
        ∃ item : RowItem,
          item.row = i + j + 2 ∧ item.id = rowIdOf d ∧ item.data = d ∧
          (((validator d).1 = true ∧ item ∈ r.valid_items ∧ item.error = none) ∨
           ((validator d).1 = false ∧ item ∈ r.invalid_items ∧ item.error = (validator d).2)) := by
  intro rows
  induction rows with
  | nil => intro i acc r _ j rowj d hj; simp at hj
  | cons row rest ih =>
    intro i acc r hrun j rowj d hj hd
    simp only [importLoop] at hrun
    cases htr : transform_flat_to_nested row with
    | error e => rw [htr] at hrun; simp at hrun
    | ok d0 =>
      rw [htr] at hrun
      simp only [] at hrun
      cases j with
      | zero =>
        simp only [List.getElem?_cons_zero, Option.some.injEq] at hj
        subst hj
        rw [htr] at hd
        injection hd with hdd
        subst hdd
        split_ifs at hrun with hb
        · have hmono := (importLoop_mono validator rest (i + 1) _ r hrun).1
          refine ⟨⟨i + 2, rowIdOf d0, none, d0⟩, rfl, rfl, rfl, Or.inl ⟨hb, ?_, rfl⟩⟩
          exact hmono _ (by simp)
        · have hmono := (importLoop_mono validator rest (i + 1) _ r hrun).2
          refine ⟨⟨i + 2, rowIdOf d0, (validator d0).2, d0⟩, rfl, rfl, rfl,
            Or.inr ⟨by simpa using hb, ?_, rfl⟩⟩
          exact hmono _ (by simp)
      | succ j2 =>
        simp only [List.getElem?_cons_succ] at hj
        split_ifs at hrun with hb
        · obtain ⟨item, h1, h2, h3, h4⟩ := ih (i + 1) _ r hrun j2 rowj d hj hd
          exact ⟨item, by omega, h2, h3, h4⟩
        · obtain ⟨item, h1, h2, h3, h4⟩ := ih (i + 1) _ r hrun j2 rowj d hj hd
          exact ⟨item, by omega, h2, h3, h4⟩

/-! ## Claims about the validation pipeline -/

/-- C10: report invariants. Whenever `import_and_validate_csv` returns a
report, total = valid + invalid, the valid count equals the length of the
valid-items sequence, the invalid count equals the length of the
invalid-items sequence, and total equals the number of data rows (so each
data row lands in exactly one of the two sequences). -/
theorem claim_C10 :
    ∀ (availableSchemas : List String) (validator : Validator)
      (csvData : List (List (String × String))) (schema_name : String)
      (r : ValidationResults),
      import_and_validate_csv availableSchemas validator csvData schema_name = .ok r →
      r.total = r.valid + r.invalid
      ∧ r.valid = r.valid_items.length
      ∧ r.invalid = r.invalid_items.length
      ∧ r.total = csvData.length := by
  intro A V D N r h
  unfold import_and_validate_csv at h
  split_ifs at h with hmem
  · have htot := importLoop_total_eq V D 0 _ r h
    have hc := importLoop_counts V D 0 _ r h
    have hlen := importLoop_len V D 0 _ r h
    have h1 : r.valid = r.valid_items.length := hc.1 rfl
    have h2 : r.invalid = r.invalid_items.length := hc.2 rfl
    simp only [List.length_nil] at hlen
    refine ⟨?_, h1, h2, htot.trans rfl⟩
    rw [h1, h2]
    have htot2 : r.total = D.length := htot.trans rfl
    omega

/-- Witness for C10: the two-row demo run satisfies the invariants. -/
theorem claim_C10_witness :
    import_and_validate_csv ["event"] vOkAll demoRows "event" = .ok demoReport
    ∧ (demoReport.total = demoReport.valid + demoReport.invalid
      ∧ demoReport.valid = demoReport.valid_items.length
      ∧ demoReport.invalid = demoReport.invalid_items.length
      ∧ demoReport.total = demoRows.length) :=
  ⟨rfl, claim_C10 ["event"] vOkAll demoRows "event" demoReport rfl⟩

/-- C7: row numbering. Every data row at 0-based index j that the returned
report covers is recorded with row number j + 2 (the outcome also carries
the row's identifier and nested record). -/
theorem claim_C7 :
    ∀ (availableSchemas : List String) (validator : Validator)
      (csvData : List (List (String × String))) (schema_name : String)
      (r : ValidationResults),
      import_and_validate_csv availableSchemas validator csvData schema_name = .ok r →
      ∀ (j : Nat) (rowj : List (String × String)) (d : List (String × PyVal)),
        csvData[j]? = some rowj →
        transform_flat_to_nested rowj = .ok d →
        ∃ item : RowItem,
          (item ∈ r.valid_items ∨ item ∈ r.invalid_items)
          ∧ item.row = j + 2 ∧ item.id = rowIdOf d ∧ item.data = d := by
  intro A V D N r h j rowj d hj hd
  unfold import_and_validate_csv at h
  split_ifs at h with hmem
  · obtain ⟨item, h1, h2, h3, h4⟩ := importLoop_item V D 0 _ r h j rowj d hj hd
    refine ⟨item, ?_, by omega, h2, h3⟩
    rcases h4 with ⟨_, hmem2, _⟩ | ⟨_, hmem2, _⟩
    · exact Or.inl hmem2
    · exact Or.inr hmem2

/-- Witness for C7: in the two-row demo run the first data row is reported
as row 2 and the second as row 3. -/
theorem claim_C7_witness :
    (∃ item : RowItem,
      (item ∈ demoReport.valid_items ∨ item ∈ demoReport.invalid_items)
      ∧ item.row = 0 + 2 ∧ item.id = rowIdOf [("id", PyVal.vInt 7)]
      ∧ item.data = [("id", PyVal.vInt 7)])
    ∧ (∃ item : RowItem,
      (item ∈ demoReport.valid_items ∨ item ∈ demoReport.invalid_items)
      ∧ item.row = 1 + 2 ∧ item.id = rowIdOf [("id", PyVal.vInt 8)]
      ∧ item.data = [("id", PyVal.vInt 8)]) :=
  ⟨claim_C7 ["event"] vOkAll demoRows "event" demoReport rfl 0 [("id", "7")]
      [("id", PyVal.vInt 7)] rfl rfl,
   claim_C7 ["event"] vOkAll demoRows "event" demoReport rfl 1 [("id", "8")]
      [("id", PyVal.vInt 8)] rfl rfl⟩

/-- C1 (amended): per-row isolation holds for validation failures — when
every row transcodes, the run returns a complete report covering all data
rows no matter how many rows the validator rejects, and each rejected row is
recorded as an invalid outcome carrying the validator's error text. A
transcoding failure, by contrast, aborts the run (see the counterexample). -/
theorem claim_C1 :
    (∀ (availableSchemas : List String) (validator : Validator)
      (csvData : List (List (String × String))) (schema_name : String),
      schema_name ∈ availableSchemas →
      (∀ row ∈ csvData, ∃ d, transform_flat_to_nested row = .ok d) →
      ∃ r, import_and_validate_csv availableSchemas validator csvData schema_name = .ok r
        ∧ r.total = csvData.length
        ∧ r.valid_items.length + r.invalid_items.length = csvData.length)
    ∧ (∀ (availableSchemas : List String) (validator : Validator)
      (csvData : List (List (String × String))) (schema_name : String)
      (r : ValidationResults),
      import_and_validate_csv availableSchemas validator csvData schema_name = .ok r →
      ∀ (j : Nat) (rowj : List (String × String)) (d : List (String × PyVal)),
        csvData[j]? = some rowj →
        transform_flat_to_nested rowj = .ok d →
        (validator d).1 = false →
        ∃ item : RowItem, item ∈ r.invalid_items ∧ item.row = j + 2
          ∧ item.error = (validator d).2) := by
  constructor
  · intro A V D N hmem htr
    obtain ⟨r, hr⟩ := importLoop_ok_of_transforms V D 0
      { total := D.length, valid := 0, invalid := 0, valid_items := [], invalid_items := [] }
      htr
    have htot := importLoop_total_eq V D 0 _ r hr
    have hlen := importLoop_len V D 0 _ r hr
    refine ⟨r, ?_, htot.trans rfl, ?_⟩
    · unfold import_and_validate_csv
      rw [if_pos hmem]
      exact hr
    · simpa using hlen
  · intro A V D N r h j rowj d hj hd hb
    unfold import_and_validate_csv at h
    split_ifs at h with hmem
    · obtain ⟨item, h1, h2, h3, h4⟩ := importLoop_item V D 0 _ r h j rowj d hj hd
      rcases h4 with ⟨hb2, _, _⟩ | ⟨_, hmem2, herr⟩
      · rw [hb] at hb2
        exact absurd hb2 Bool.false_ne_true
      · exact ⟨item, hmem2, by omega, herr⟩

/-- Counterexample for C1 as stated: a transcoding failure on the first data
row (the "a" / "a.b" key clash of C9) aborts the whole run — the second data
row is never processed and no report at all is returned, so the failing row
is not recorded as an invalid outcome. -/
theorem claim_C1_cex :
    import_and_validate_csv ["event"] vOkAll
      [[("a", "5"), ("a.b", "6")], [("id", "7")]] "event" =
      .error nonDictAssignError := rfl

/-- Witness for C1 (amended): with the all-rejecting validator the demo run
still returns a complete two-row report. -/
theorem claim_C1_witness :
    "event" ∈ ["event"]
    ∧ (∃ r, import_and_validate_csv ["event"] vRejectAll demoRows "event" = .ok r
        ∧ r.total = demoRows.length
        ∧ r.valid_items.length + r.invalid_items.length = demoRows.length) :=
  ⟨by decide,
   claim_C1.1 ["event"] vRejectAll demoRows "event" (by decide)
    (fun row hr => by
      rcases List.mem_cons.mp hr with h | h
      · exact ⟨[("id", .vInt 7)], by rw [h]; rfl⟩
      rcases List.mem_cons.mp h with h2 | h2
      · exact ⟨[("id", .vInt 8)], by rw [h2]; rfl⟩
      · exact absurd h2 (by simp))⟩

/-- C6: unknown schema name. For every schema name outside the discovered
set, `import_and_validate_csv` fails — for every tabular input, so before
any row is processed and with no partial report — and the error message
contains both the requested name and the rendered list of available schema
names. -/
theorem claim_C6 :
    ∀ (availableSchemas : List String) (validator : Validator)
      (csvData : List (List (String × String))) (schema_name : String),
      schema_name ∉ availableSchemas →
      import_and_validate_csv availableSchemas validator csvData schema_name =
        .error (unknownSchemaMessage schema_name availableSchemas)
      ∧ ContainsStr (unknownSchemaMessage schema_name availableSchemas) schema_name
      ∧ ContainsStr (unknownSchemaMessage schema_name availableSchemas)
          (pyListRepr availableSchemas) := by
  intro A V D N h
  refine ⟨?_, ⟨"Unknown schema: ", ". Available schemas: " ++ pyListRepr A, ?_⟩,
    ⟨"Unknown schema: " ++ N ++ ". Available schemas: ", "", ?_⟩⟩
  · unfold import_and_validate_csv
    rw [if_neg h]
  · simp [unknownSchemaMessage, String.append_assoc]
  · simp [unknownSchemaMessage, String.append_assoc, String.append_empty]

/-- Witness for C6 at the unknown name "menu" against two available
schemas. -/
theorem claim_C6_witness :
    "menu" ∉ ["event", "place"]
    ∧ (import_and_validate_csv ["event", "place"] vOkAll [] "menu" =
        .error (unknownSchemaMessage "menu" ["event", "place"])
      ∧ ContainsStr (unknownSchemaMessage "menu" ["event", "place"]) "menu"
      ∧ ContainsStr (unknownSchemaMessage "menu" ["event", "place"])
          (pyListRepr ["event", "place"])) :=
  ⟨by decide, claim_C6 ["event", "place"] vOkAll [] "menu" (by decide)⟩

/-! ## Lemmas about the schema flattener -/

theorem flattenProps_cons_obj (key : String) (value : JVal)
    (rest props acc : List (String × JVal)) (pk : String)
    (hobj : isObjectWithProps value = true)
    (hps : jGet value "properties" = some (JVal.jObj props)) :
    flattenProps ((key, value) :: rest) pk acc =
      flattenProps rest pk
        (flattenProps props (if pk = "" then key else pk ++ "." ++ key) acc) := by
  simp only [flattenProps, hobj, if_true]
  split
  · rename_i cp2 heq
    rw [hps] at heq
    injection heq with he1
    injection he1 with he2
    subst he2
    rfl
  · rename_i hbad
    exact (hbad props hps).elim

theorem flattenProps_cons_obj_bad (key : String) (value : JVal)
    (rest acc : List (String × JVal)) (pk : String)
    (hobj : isObjectWithProps value = true)
    (hbad : ∀ ps, jGet value "properties" = some (JVal.jObj ps) → False) :
    flattenProps ((key, value) :: rest) pk acc = flattenProps rest pk acc := by
  simp only [flattenProps, hobj, if_true]

theorem flattenProps_cons_arr_obj (key : String) (value : JVal)
    (rest acc : List (String × JVal)) (pk : String)
    (hobj : isObjectWithProps value = false)
    (harr : (jHasKey value "items" && typeIs value "array") = true)
    (hio : isObjectWithProps ((jGet value "items").getD (.jObj [])) = true) :
    flattenProps ((key, value) :: rest) pk acc =
      flattenProps rest pk
        ((match jGet ((jGet value "items").getD (.jObj [])) "properties" with
          | some (.jObj ps) => ps
          | _ => ([] : List (String × JVal))).foldl
          (fun (a : List (String × JVal)) (kv : String × JVal) =>
            dictSet a ((if pk = "" then key else pk ++ "." ++ key) ++ "." ++ kv.1) kv.2)
          acc) := by
  simp [flattenProps, hobj, harr, hio]

theorem flattenProps_cons_oh (value : JVal) (rest acc : List (String × JVal)) (pk : String)
    (hobj : isObjectWithProps value = false)
    (harr : (jHasKey value "items" && typeIs value "array") = true)
    (hio : isObjectWithProps ((jGet value "items").getD (.jObj [])) = false) :
    flattenProps (("openingHours", value) :: rest) pk acc =
      flattenProps rest pk
        (weekDays.foldl
          (fun a day =>
            dictSet
              (dictSet a
                ((if pk = "" then "openingHours" else pk ++ "." ++ "openingHours")
                  ++ "." ++ day ++ ".opens") timeLeafNode)
              ((if pk = "" then "openingHours" else pk ++ "." ++ "openingHours")
                ++ "." ++ day ++ ".closes") timeLeafNode)
          acc) := by
  simp [flattenProps, hobj, harr, hio]

theorem flattenProps_cons_arr_leaf (key : String) (value : JVal)
    (rest acc : List (String × JVal)) (pk : String)
    (hobj : isObjectWithProps value = false)
    (harr : (jHasKey value "items" && typeIs value "array") = true)
    (hio : isObjectWithProps ((jGet value "items").getD (.jObj [])) = false)
    (hkey : ¬(key = "openingHours")) :
    flattenProps ((key, value) :: rest) pk acc =
      flattenProps rest pk
        (dictSet acc (if pk = "" then key else pk ++ "." ++ key) value) := by
  simp [flattenProps, hobj, harr, hio, hkey]

theorem flattenProps_cons_plain (key : String) (value : JVal)
    (rest acc : List (String × JVal)) (pk : String)
    (hobj : isObjectWithProps value = false)
    (harr : (jHasKey value "items" && typeIs value "array") = false) :
    flattenProps ((key, value) :: rest) pk acc =
      flattenProps rest pk
        (dictSet acc (if pk = "" then key else pk ++ "." ++ key) value) := by
  simp [flattenProps, hobj, harr]

theorem foldl_pres_isSome {α β : Type} (step : List (String × α) → β → List (String × α))
    (hstep : ∀ a b k, (dictGet a k).isSome = true → (dictGet (step a b) k).isSome = true) :
    ∀ (l : List β) (acc : List (String × α)) (k : String),
      (dictGet acc k).isSome = true → (dictGet (l.foldl step acc) k).isSome = true := by
  intro l
  induction l with
  | nil => intro acc k h; simpa using h
  | cons b rest ih =>
    intro acc k h
    rw [List.foldl_cons]
    exact ih _ k (hstep acc b k h)

/-- The keys already present in the accumulator survive the rest of the
flattening traversal (the flattener only ever adds or overwrites entries). -/
theorem flattenProps_mono :
    ∀ (props : List (String × JVal)) (pk : String) (acc : List (String × JVal)),
      ∀ k, (dictGet acc k).isSome = true →
      (dictGet (flattenProps props pk acc) k).isSome = true := by
  intro props pk acc
  induction props, pk, acc using flattenProps.induct with
  | case1 pk acc =>
    intro k h
    simpa [flattenProps] using h
  | case2 key value rest pk acc nk hobj childProps hps ih1 ih2 ih3 =>
    intro k h
    rw [flattenProps_cons_obj key value rest childProps acc pk hobj hps]
    exact ih3 k (ih1 k h)
  | case3 key value rest pk acc hobj hbad ih =>
    intro k h
    rw [flattenProps_cons_obj_bad key value rest acc pk hobj hbad]
    exact ih k h
  | case4 key value rest pk acc nk hobj harr items hio itemProps ih =>
    intro k h
    rw [flattenProps_cons_arr_obj key value rest acc pk (by simpa using hobj) harr hio]
    refine ih k (foldl_pres_isSome _ ?_ _ acc k h)
    intro a b k2 h2
    exact dictGet_dictSet_isSome a _ k2 _ h2
  | case5 value rest pk acc hobj harr items hio nk ih =>
    intro k h
    rw [flattenProps_cons_oh value rest acc pk (by simpa using hobj) harr
      (by simpa using hio)]
    refine ih k (foldl_pres_isSome _ ?_ _ acc k h)
    intro a b k2 h2
    exact dictGet_dictSet_isSome _ _ k2 _ (dictGet_dictSet_isSome a _ k2 _ h2)
  | case6 key value rest pk acc nk hobj harr items hio hkey ih =>
    intro k h
    rw [flattenProps_cons_arr_leaf key value rest acc pk (by simpa using hobj) harr
      (by simpa using hio) hkey]
    exact ih k (dictGet_dictSet_isSome acc _ k _ h)
  | case7 key value rest pk acc nk hobj harr ih =>
    intro k h
    rw [flattenProps_cons_plain key value rest acc pk (by simpa using hobj)
      (by simpa using harr)]
    exact ih k (dictGet_dictSet_isSome acc _ k _ h)

/-- After the openingHours fold, every listed day has both its `.opens` and
`.closes` paths present. -/
theorem daysFold_isSome (base : String) :
    ∀ (days : List String) (acc : List (String × JVal)) (day : String), day ∈ days →
      (dictGet (days.foldl
        (fun a d2 =>
          dictSet (dictSet a (base ++ "." ++ d2 ++ ".opens") timeLeafNode)
            (base ++ "." ++ d2 ++ ".closes") timeLeafNode) acc)
        (base ++ "." ++ day ++ ".opens")).isSome = true
      ∧ (dictGet (days.foldl
        (fun a d2 =>
          dictSet (dictSet a (base ++ "." ++ d2 ++ ".opens") timeLeafNode)
            (base ++ "." ++ d2 ++ ".closes") timeLeafNode) acc)
        (base ++ "." ++ day ++ ".closes")).isSome = true := by
  intro days
  induction days with
  | nil => intro acc day h; simp at h
  | cons d rest ih =>
    intro acc day h
    rw [List.foldl_cons]
    rcases List.mem_cons.mp h with h1 | h1
    · subst h1
      constructor
      · refine foldl_pres_isSome _ ?_ rest _ _ ?_
        · intro a b k2 h2
          exact dictGet_dictSet_isSome _ _ k2 _ (dictGet_dictSet_isSome a _ k2 _ h2)
        · apply dictGet_dictSet_isSome
          rw [dictGet_dictSet_self]
          rfl
      · refine foldl_pres_isSome _ ?_ rest _ _ ?_
        · intro a b k2 h2
          exact dictGet_dictSet_isSome _ _ k2 _ (dictGet_dictSet_isSome a _ k2 _ h2)
        · rw [dictGet_dictSet_self]
          rfl
    · exact ih _ day h1

/-! ## Claims about the flattener and template generator -/

/-- C3 (amended): the 14 openingHours paths are synthesized whenever the
`openingHours` field is declared as an array whose `items` node is not an
object with properties — regardless of which leaf item type is declared —
and for the plain array-of-string declaration the flattening is exactly the
14 paths `openingHours.<Day>.opens` / `.closes`, each a string/time leaf.
(When the items node is an object with properties, the array-of-object
branch wins and the paths are not synthesized; see the counterexample.) -/
theorem claim_C3 :
    (∀ (pre post : List (String × JVal)) (v : JVal) (pk : String)
      (acc : List (String × JVal)),
      isObjectWithProps v = false →
      (jHasKey v "items" && typeIs v "array") = true →
      isObjectWithProps ((jGet v "items").getD (.jObj [])) = false →
      ∀ day ∈ weekDays,
        (dictGet (flattenProps (pre ++ ("openingHours", v) :: post) pk acc)
          ((if pk = "" then "openingHours" else pk ++ "." ++ "openingHours")
            ++ "." ++ day ++ ".opens")).isSome = true
        ∧ (dictGet (flattenProps (pre ++ ("openingHours", v) :: post) pk acc)
          ((if pk = "" then "openingHours" else pk ++ "." ++ "openingHours")
            ++ "." ++ day ++ ".closes")).isSome = true)
    ∧ flattenProps ohLeafProps "" [] =
        [("openingHours.Monday.opens", timeLeafNode),
         ("openingHours.Monday.closes", timeLeafNode),
         ("openingHours.Tuesday.opens", timeLeafNode),
         ("openingHours.Tuesday.closes", timeLeafNode),
         ("openingHours.Wednesday.opens", timeLeafNode),
         ("openingHours.Wednesday.closes", timeLeafNode),
         ("openingHours.Thursday.opens", timeLeafNode),
         ("openingHours.Thursday.closes", timeLeafNode),
         ("openingHours.Friday.opens", timeLeafNode),
         ("openingHours.Friday.closes", timeLeafNode),
         ("openingHours.Saturday.opens", timeLeafNode),
         ("openingHours.Saturday.closes", timeLeafNode),
         ("openingHours.Sunday.opens", timeLeafNode),
         ("openingHours.Sunday.closes", timeLeafNode)] := by
  constructor
  · intro pre
    induction pre with
    | nil =>
      intro post v pk acc hobj harr hio day hday
      rw [List.nil_append, flattenProps_cons_oh v post acc pk hobj harr hio]
      have hd := daysFold_isSome
        (if pk = "" then "openingHours" else pk ++ "." ++ "openingHours")
        weekDays acc day hday
      exact ⟨flattenProps_mono post pk _ _ hd.1, flattenProps_mono post pk _ _ hd.2⟩
    | cons hd0 pre2 ih =>
      obtain ⟨k0, v0⟩ := hd0
      intro post v pk acc hobj harr hio day hday
      rw [List.cons_append]
      by_cases hobj0 : isObjectWithProps v0 = true
      · by_cases hgood : ∃ ps, jGet v0 "properties" = some (JVal.jObj ps)
        · obtain ⟨ps, hps⟩ := hgood
          rw [flattenProps_cons_obj k0 v0 _ ps acc pk hobj0 hps]
          exact ih post v pk _ hobj harr hio day hday
        · have hbad : ∀ ps, jGet v0 "properties" = some (JVal.jObj ps) → False :=
            fun ps hps => hgood ⟨ps, hps⟩
          rw [flattenProps_cons_obj_bad k0 v0 _ acc pk hobj0 hbad]
          exact ih post v pk acc hobj harr hio day hday
      · have hobj0f : isObjectWithProps v0 = false := by simpa using hobj0
        by_cases harr0 : (jHasKey v0 "items" && typeIs v0 "array") = true
        · by_cases hio0 : isObjectWithProps ((jGet v0 "items").getD (.jObj [])) = true
          · rw [flattenProps_cons_arr_obj k0 v0 _ acc pk hobj0f harr0 hio0]
            exact ih post v pk _ hobj harr hio day hday
          · have hio0f : isObjectWithProps ((jGet v0 "items").getD (.jObj [])) = false := by
              simpa using hio0
            by_cases hk0 : k0 = "openingHours"
            · subst hk0
              rw [flattenProps_cons_oh v0 _ acc pk hobj0f harr0 hio0f]
              exact ih post v pk _ hobj harr hio day hday
            · rw [flattenProps_cons_arr_leaf k0 v0 _ acc pk hobj0f harr0 hio0f hk0]
              exact ih post v pk _ hobj harr hio day hday
        · have harr0f : (jHasKey v0 "items" && typeIs v0 "array") = false := by
            simpa using harr0
          rw [flattenProps_cons_plain k0 v0 _ acc pk hobj0f harr0f]
          exact ih post v pk _ hobj harr hio day hday
  · rw [show ohLeafProps =
      [("openingHours", JVal.jObj [("type", .jStr "array"),
        ("items", .jObj [("type", .jStr "string")])])] from rfl]
    rw [flattenProps_cons_oh (JVal.jObj [("type", .jStr "array"),
      ("items", .jObj [("type", .jStr "string")])]) [] [] "" rfl rfl rfl]
    simp only [flattenProps]
    rfl

/-- Counterexample for C3 as stated: when the `openingHours` array declares
its items as an object with properties, the array-of-object branch wins — the
flattening has exactly one path `openingHours.opens` and none of the 14
synthesized day paths. -/
theorem claim_C3_cex :
    (flattenProps ohObjectItemsProps "" []).length = 1
    ∧ flattenProps ohObjectItemsProps "" [] =
        [("openingHours.opens", .jObj [("type", .jStr "string")])]
    ∧ dictGet (flattenProps ohObjectItemsProps "" []) "openingHours.Monday.opens" = none := by
  have he : flattenProps ohObjectItemsProps "" [] =
      [("openingHours.opens", JVal.jObj [("type", .jStr "string")])] := by
    rw [show ohObjectItemsProps =
      [("openingHours", JVal.jObj [("type", .jStr "array"),
        ("items", .jObj [("type", .jStr "object"),
          ("properties", .jObj [("opens", .jObj [("type", .jStr "string")])])])])]
      from rfl]
    rw [flattenProps_cons_arr_obj "openingHours"
      (JVal.jObj [("type", .jStr "array"),
        ("items", .jObj [("type", .jStr "object"),
          ("properties", .jObj [("opens", .jObj [("type", .jStr "string")])])])])
      [] [] "" rfl rfl rfl]
    simp only [flattenProps]
    rfl
  exact ⟨by rw [he]; rfl, he, by rw [he]; rfl⟩

/-- Witness for C3 (amended) at the array-of-string declaration, checking
Wednesday. -/
theorem claim_C3_witness :
    isObjectWithProps (JVal.jObj [("type", .jStr "array"),
      ("items", .jObj [("type", .jStr "string")])]) = false
    ∧ (jHasKey (JVal.jObj [("type", .jStr "array"),
        ("items", .jObj [("type", .jStr "string")])]) "items"
      && typeIs (JVal.jObj [("type", .jStr "array"),
        ("items", .jObj [("type", .jStr "string")])]) "array") = true
    ∧ "Wednesday" ∈ weekDays
    ∧ ((dictGet (flattenProps ohLeafProps "" []) "openingHours.Wednesday.opens").isSome = true
      ∧ (dictGet (flattenProps ohLeafProps "" []) "openingHours.Wednesday.closes").isSome = true) :=
  ⟨by decide, by decide, by decide,
   claim_C3.1 [] [] (JVal.jObj [("type", .jStr "array"),
     ("items", .jObj [("type", .jStr "string")])]) "" []
     (by decide) (by decide) (by decide) "Wednesday" (by decide)⟩

theorem dictGet_map_self (f : String → String) :
    ∀ (hs : List String) (h : String), h ∈ hs →
      ∃ v, dictGet (hs.map (fun x => (x, f x))) h = some v := by
  intro hs
  induction hs with
  | nil => intro h hm; simp at hm
  | cons a rest ih =>
    intro h hm
    by_cases hak : a = h
    · exact ⟨f a, by simp [dictGet, hak]⟩
    · rcases List.mem_cons.mp hm with h1 | h1
      · exact absurd h1.symm hak
      · obtain ⟨v, hv⟩ := ih h h1
        refine ⟨v, ?_⟩
        rw [List.map_cons]
        simp only [dictGet, if_neg hak]
        exact hv

/-- C8: for every schema, the template's headers are exactly the flattened
paths in traversal order (no sorting), their count equals the flattening's
size, and the sample row has an entry for every header. -/
theorem claim_C8 :
    ∀ (schema : JVal) (schema_name : String),
      (generate_template_parts schema schema_name).1 = (flatten_schema schema).map Prod.fst
      ∧ (generate_template_parts schema schema_name).1.length = (flatten_schema schema).length
      ∧ ∀ h ∈ (generate_template_parts schema schema_name).1,
          ∃ v, dictGet (generate_template_parts schema schema_name).2 h = some v := by
  intro schema schema_name
  refine ⟨rfl, ?_, ?_⟩
  · show ((flatten_schema schema).map Prod.fst).length = _
    exact List.length_map _ _
  · intro h hm
    show ∃ v, dictGet (((flatten_schema schema).map Prod.fst).map
      (fun x => (x, (dictGet (mergeDicts (common_samples schema_name)
        (schema_samples schema_name)) x).getD ""))) h = some v
    exact dictGet_map_self _ _ h hm

/-- Witness for C8 at a concrete two-field schema. -/
theorem claim_C8_witness :
    "nameFr" ∈ (generate_template_parts twoFieldSchema "event").1
    ∧ ∃ v, dictGet (generate_template_parts twoFieldSchema "event").2 "nameFr" = some v := by
  have hf : flatten_schema twoFieldSchema =
      [("id", JVal.jObj [("type", .jStr "string")]),
       ("nameFr", JVal.jObj [("type", .jStr "string")])] := by
    show flattenProps [("id", JVal.jObj [("type", .jStr "string")]),
      ("nameFr", JVal.jObj [("type", .jStr "string")])] "" [] = _
    rw [flattenProps_cons_plain "id" (JVal.jObj [("type", .jStr "string")]) _ _ _ rfl rfl,
      flattenProps_cons_plain "nameFr" (JVal.jObj [("type", .jStr "string")]) _ _ _ rfl rfl]
    simp only [flattenProps]
    rfl
  have hmem : "nameFr" ∈ (generate_template_parts twoFieldSchema "event").1 := by
    show "nameFr" ∈ (flatten_schema twoFieldSchema).map Prod.fst
    rw [hf]
    decide
  exact ⟨hmem, (claim_C8 twoFieldSchema "event").2.2 "nameFr" hmem⟩

end CsvValidator
